import Mathlib

/-!
Shallow embedding of the elision-core AMM engine
(src/scrypto/exchange/src/liquidity_pool.rs, src/scrypto/exchange/src/swap.rs,
src/contracts/core/src/utils.rs).

Modelling choices:
* `ResourceAddress` is modelled as `List Nat` (the byte vector returned by
  `to_vec()`), compared by Rust's lexicographic `Ord` on `Vec<u8>`.
* Scrypto's `Decimal` is modelled as exact rationals `ℚ`.  The spec's
  statements are about the exact quote formulas ("within rounding"), and the
  fixed-point truncation of the library type is not part of this repository.
* A `Bucket` carries an address and an amount; the ledger's mint/burn and
  resource-manager services are reflected directly in the pool state
  (`provider_token_supply` tracks `total_supply()`).
* Every Rust `assert!` aborts the enclosing transaction with no state change,
  so each fallible operation is `Except ErrorKind _`: an `Except.error` result
  means the operation aborted and the pre-state is kept.
* The pool's two vaults live in a `HashMap`; the map's key set is fixed at
  creation (deposit/withdraw only `get_mut` existing keys), so the embedding
  stores the two vaults as the fields `(address0, amount0)`, `(address1,
  amount1)` in the canonical `sort_addresses` order used at creation.
-/

abbrev Addr : Type := List Nat

abbrev Decimal : Type := ℚ

/-- The spec's error taxonomy (spec §7); in the source every failure is a
Rust `assert!`/panic at the violated precondition. -/
inductive ErrorKind : Type where
  | validation
  | membership
  | notFound
  | alreadyExists
  | liquidity
  | slippage
  deriving DecidableEq, Repr

/-- A fungible value container: carries (assetId, amount). -/
structure Bucket : Type where
  address : Addr
  amount : Decimal
  deriving DecidableEq, Repr

/-- Rust's lexicographic `<` on `Vec<u8>` (a strict prefix is smaller). -/
def vecLt : List Nat → List Nat → Bool
  | [], [] => false
  | [], _ :: _ => true
  | _ :: _, [] => false
  | a :: as_, b :: bs => if a < b then true else if b < a then false else vecLt as_ bs

/-- Rust's `>` on `Vec<u8>`: `a > b` iff `b < a`. -/
def vecGt (a b : List Nat) : Bool := vecLt b a

/-- src/contracts/core/src/utils.rs, `sort_addresses`:
`match address0.to_vec() > address1.to_vec() { true => (address0, address1),
false => (address1, address0) }`. -/
def sort_addresses (address0 address1 : Addr) : Addr × Addr :=
  if vecGt address0 address1 then (address0, address1) else (address1, address0)

/-- src/contracts/core/src/utils.rs, `sort_buckets`: orders the two buckets so
that the first one carries `sort_addresses(..).0`. -/
def sort_buckets (bucket0 bucket1 : Bucket) : Bucket × Bucket :=
  let addresses := sort_addresses bucket0.address bucket1.address
  if bucket0.address = addresses.1 then (bucket0, bucket1) else (bucket1, bucket0)

/-- src/scrypto/exchange/src/liquidity_pool.rs, `struct LiquidityPool`.
The two vaults are stored in the canonical order produced by `sort_buckets`
at creation: `address0 = sort_addresses(a,b).0`, `address1 = ...1`. -/
structure LiquidityPool : Type where
  address0 : Addr
  address1 : Addr
  amount0 : Decimal
  amount1 : Decimal
  provider_token_address : Addr
  provider_token_supply : Decimal
  pool_fee : Decimal
  deriving DecidableEq, Repr

namespace LiquidityPool

/-- `belongs_to_pool`: `self.vaults.contains_key(&address)`. -/
def belongs_to_pool (p : LiquidityPool) (address : Addr) : Bool :=
  address = p.address0 || address = p.address1

/-- The balance of the vault keyed by `address` (0 off the key set; the
source never reads a vault for a non-member address). -/
def reserve (p : LiquidityPool) (address : Addr) : Decimal :=
  if address = p.address0 then p.amount0
  else if address = p.address1 then p.amount1
  else 0

/-- The body of `other_resource_address` once membership is established:
`if addresses[0] == resource_address { addresses[1] } else { addresses[0] }`. -/
def otherAddr (p : LiquidityPool) (address : Addr) : Addr :=
  if p.address0 = address then p.address1 else p.address0

/-- `other_resource_address`, with its membership assertion. -/
def other_resource_address (p : LiquidityPool) (address : Addr) :
    Except ErrorKind Addr :=
  if p.belongs_to_pool address then .ok (p.otherAddr address)
  else .error .membership

/-- `k()`: product of the two reserve balances. -/
def k (p : LiquidityPool) : Decimal := p.amount0 * p.amount1

/-- `calculate_output_amount`: with `x` the input-side reserve, `y` the other
reserve, `r = (100 - fee)/100`, returns `dy = (dx*r*y)/(x + r*dx)`; asserts
membership first. -/
def calculate_output_amount (p : LiquidityPool) (input_resource_address : Addr)
    (input_amount : Decimal) : Except ErrorKind Decimal :=
  if p.belongs_to_pool input_resource_address then
    let x : Decimal := p.reserve input_resource_address
    let y : Decimal := p.reserve (p.otherAddr input_resource_address)
    let dx : Decimal := input_amount
    let r : Decimal := (100 - p.pool_fee) / 100
    .ok ((dx * r * y) / (x + r * dx))
  else .error .membership

/-- `calculate_input_amount`: with `x` the other reserve, `y` the output-side
reserve, `r = (100 - fee)/100`, returns `dx = (dy*x)/(r*(y - dy))`; asserts
membership first.  NOTE: the source has no check that `dy < y`. -/
def calculate_input_amount (p : LiquidityPool) (output_resource_address : Addr)
    (output_amount : Decimal) : Except ErrorKind Decimal :=
  if p.belongs_to_pool output_resource_address then
    let x : Decimal := p.reserve (p.otherAddr output_resource_address)
    let y : Decimal := p.reserve output_resource_address
    let dy : Decimal := output_amount
    let r : Decimal := (100 - p.pool_fee) / 100
    .ok ((dy * x) / (r * (y - dy)))
  else .error .membership

/-- Add `amount` to the vault keyed by `address` (key set unchanged). -/
def credit (p : LiquidityPool) (address : Addr) (amount : Decimal) :
    LiquidityPool :=
  if address = p.address0 then { p with amount0 := p.amount0 + amount }
  else if address = p.address1 then { p with amount1 := p.amount1 + amount }
  else p

/-- Remove `amount` from the vault keyed by `address`. -/
def debit (p : LiquidityPool) (address : Addr) (amount : Decimal) :
    LiquidityPool :=
  if address = p.address0 then { p with amount0 := p.amount0 - amount }
  else if address = p.address1 then { p with amount1 := p.amount1 - amount }
  else p

/-- `deposit`: asserts membership, then `put`s the bucket in its vault. -/
def deposit (p : LiquidityPool) (bucket : Bucket) :
    Except ErrorKind LiquidityPool :=
  if p.belongs_to_pool bucket.address then
    .ok (p.credit bucket.address bucket.amount)
  else .error .membership

/-- `withdraw`: asserts membership, asserts `vault.amount() >= amount`
(LiquidityError), then `take`s. -/
def withdraw (p : LiquidityPool) (resource_address : Addr) (amount : Decimal) :
    Except ErrorKind (LiquidityPool × Bucket) :=
  if p.belongs_to_pool resource_address then
    if p.reserve resource_address < amount then .error .liquidity
    else .ok (p.debit resource_address amount, ⟨resource_address, amount⟩)
  else .error .membership

/-- `swap`: asserts membership, quotes `calculate_output_amount` against the
pre-swap reserves, withdraws that amount of the sibling asset, then deposits
the whole input bucket. -/
def swap (p : LiquidityPool) (tokens : Bucket) :
    Except ErrorKind (LiquidityPool × Bucket) :=
  if p.belongs_to_pool tokens.address then
    match p.calculate_output_amount tokens.address tokens.amount with
    | .error e => .error e
    | .ok output_amount =>
      match p.withdraw (p.otherAddr tokens.address) output_amount with
      | .error e => .error e
      | .ok (p1, output_tokens) =>
        match p1.deposit tokens with
        | .error e => .error e
        | .ok p2 => .ok (p2, output_tokens)
  else .error .membership

/-- `swap_exact_tokens_for_tokens`: asserts membership, calls `swap`, then
asserts `output >= min_amount_out` (SlippageError; the failed assertion aborts
the whole transaction, so the pre-state is kept). -/
def swap_exact_tokens_for_tokens (p : LiquidityPool) (tokens : Bucket)
    (min_amount_out : Decimal) : Except ErrorKind (LiquidityPool × Bucket) :=
  if p.belongs_to_pool tokens.address then
    match p.swap tokens with
    | .error e => .error e
    | .ok (p1, output_tokens) =>
      if output_tokens.amount >= min_amount_out then .ok (p1, output_tokens)
      else .error .slippage
  else .error .membership

/-- `swap_tokens_for_exact_tokens`: quotes the required input via
`calculate_input_amount` for the sibling asset, asserts the bucket covers it
(LiquidityError), deposits exactly the required amount, withdraws the exact
output, and returns the output plus the input remainder. -/
def swap_tokens_for_exact_tokens (p : LiquidityPool) (tokens : Bucket)
    (output_amount : Decimal) :
    Except ErrorKind (LiquidityPool × Bucket × Bucket) :=
  if p.belongs_to_pool tokens.address then
    match p.calculate_input_amount (p.otherAddr tokens.address) output_amount with
    | .error e => .error e
    | .ok input_required =>
      if tokens.amount < input_required then .error .liquidity
      else
        match p.deposit ⟨tokens.address, input_required⟩ with
        | .error e => .error e
        | .ok p1 =>
          match p1.withdraw (p1.otherAddr tokens.address) output_amount with
          | .error e => .error e
          | .ok (p2, output_tokens) =>
            .ok (p2, output_tokens, ⟨tokens.address, tokens.amount - input_required⟩)
  else .error .membership

/-- `add_liquidity`: asserts both buckets are members and non-empty
(ValidationError per spec §7), sorts the buckets, computes the deposit split
from the current reserves `m, n` and the deposit `dm, dn`, deposits, mints
`amount0 * total_supply / m` shares (or the 100 bootstrap when supply is 0),
and returns the two remainders plus the minted share bucket. -/
def add_liquidity (p : LiquidityPool) (token0 token1 : Bucket) :
    Except ErrorKind (Bucket × Bucket × Bucket × LiquidityPool) :=
  if p.belongs_to_pool token0.address && p.belongs_to_pool token1.address then
    if token0.amount = 0 || token1.amount = 0 then .error .validation
    else
      let sorted := sort_buckets token0 token1
      let bucket0 := sorted.1
      let bucket1 := sorted.2
      let dm : Decimal := bucket0.amount
      let dn : Decimal := bucket1.amount
      let m : Decimal := p.reserve bucket0.address
      let n : Decimal := p.reserve bucket1.address
      let amounts : Decimal × Decimal :=
        if (m = 0 || n = 0) || (m / n = dm / dn) then (dm, dn)
        else if m / n < dm / dn then (dn * m / n, dn)
        else (dm, dm * n / m)
      let amount0 := amounts.1
      let amount1 := amounts.2
      let p1 := p.credit bucket0.address amount0
      let p2 := p1.credit bucket1.address amount1
      let provider_amount : Decimal :=
        if p.provider_token_supply = 0 then 100
        else amount0 * p.provider_token_supply / m
      let p3 := { p2 with provider_token_supply :=
                    p2.provider_token_supply + provider_amount }
      .ok (⟨bucket0.address, dm - amount0⟩, ⟨bucket1.address, dn - amount1⟩,
           ⟨p.provider_token_address, provider_amount⟩, p3)
  else .error .membership

/-- `remove_liquidity`: asserts the bucket carries this pool's provider token
(ValidationError), computes `percentage = amount/total_supply`, burns the
shares, then withdraws `percentage * reserve` from each vault (the `withdraw`
helper re-checks liquidity). -/
def remove_liquidity (p : LiquidityPool) (provider_tokens : Bucket) :
    Except ErrorKind (Bucket × Bucket × LiquidityPool) :=
  if provider_tokens.address = p.provider_token_address then
    let percentage : Decimal := provider_tokens.amount / p.provider_token_supply
    let p1 := { p with provider_token_supply :=
                  p.provider_token_supply - provider_tokens.amount }
    match p1.withdraw p1.address0 (p1.amount0 * percentage) with
    | .error e => .error e
    | .ok (p2, bucket0) =>
      match p2.withdraw p2.address1 (p2.amount1 * percentage) with
      | .error e => .error e
      | .ok (p3, bucket1) => .ok (bucket0, bucket1, p3)
  else .error .validation

/-- `LiquidityPool::new`: asserts distinct assets, non-empty buckets and
`fee ∈ [0,100]` (all ValidationError), sorts the buckets into fresh vaults,
mints the 100-share bootstrap to the creator.  The fresh provider-token
resource address is supplied by the ledger, here a parameter.  (The source
also rejects non-fungible resources; all modelled assets are fungible.) -/
def new (token0 token1 : Bucket) (pool_fee : Decimal) (pt_address : Addr) :
    Except ErrorKind (LiquidityPool × Bucket) :=
  if token0.address = token1.address then .error .validation
  else if token0.amount = 0 || token1.amount = 0 then .error .validation
  else if ¬(0 ≤ pool_fee ∧ pool_fee ≤ 100) then .error .validation
  else
    let sorted := sort_buckets token0 token1
    let bucket0 := sorted.1
    let bucket1 := sorted.2
    .ok ({ address0 := bucket0.address
           address1 := bucket1.address
           amount0 := bucket0.amount
           amount1 := bucket1.amount
           provider_token_address := pt_address
           provider_token_supply := 100
           pool_fee := pool_fee },
         ⟨pt_address, 100⟩)

end LiquidityPool

/-- src/scrypto/exchange/src/swap.rs, `struct ElisionSwap`.  The two
`HashMap`s are modelled as association lists whose key uniqueness is proved
as a reachability invariant. -/
structure ElisionSwap : Type where
  liquidity_pools : List ((Addr × Addr) × LiquidityPool)
  address_pair_map : List (Addr × (Addr × Addr))
  deriving Repr

namespace ElisionSwap

/-- `HashMap::get` over the association list. -/
def lookupPool : List ((Addr × Addr) × LiquidityPool) → Addr × Addr →
    Option LiquidityPool
  | [], _ => none
  | (key, pool) :: rest, pair =>
    if key = pair then some pool else lookupPool rest pair

/-- Replace the pool stored at `pair` (keys unchanged; the router mutates a
pool in place through the component handle). -/
def updatePool (pools : List ((Addr × Addr) × LiquidityPool))
    (pair : Addr × Addr) (pool : LiquidityPool) :
    List ((Addr × Addr) × LiquidityPool) :=
  pools.map fun kv => if kv.1 = pair then (pair, pool) else kv

/-- `HashMap::get` over the reverse map. -/
def lookupPair : List (Addr × (Addr × Addr)) → Addr → Option (Addr × Addr)
  | [], _ => none
  | (key, pair) :: rest, address =>
    if key = address then some pair else lookupPair rest address

/-- `ElisionSwap::new`: both registries empty. -/
def new : ElisionSwap := ⟨[], []⟩

/-- `pool_exists`: sorts the two addresses and probes the pool registry. -/
def pool_exists (s : ElisionSwap) (address0 address1 : Addr) : Bool :=
  (lookupPool s.liquidity_pools (sort_addresses address0 address1)).isSome

/-- `new_liquidity_pool`: asserts no pool is registered for the pair
(AlreadyExistsError), sorts the buckets, creates a `LiquidityPool` with the
hardcoded `0.3` fee, and registers it in both maps.  The fresh provider-token
address chosen by the ledger is a parameter. -/
def new_liquidity_pool (s : ElisionSwap) (token0 token1 : Bucket)
    (pt_address : Addr) : Except ErrorKind (Bucket × ElisionSwap) :=
  if s.pool_exists token0.address token1.address then .error .alreadyExists
  else
    let sorted := sort_buckets token0 token1
    let bucket0 := sorted.1
    let bucket1 := sorted.2
    let addresses := (bucket0.address, bucket1.address)
    match LiquidityPool.new bucket0 bucket1 (3 / 10) pt_address with
    | .error e => .error e
    | .ok (liquidity_pool, provider_tokens) =>
      .ok (provider_tokens,
           { liquidity_pools := (addresses, liquidity_pool) :: s.liquidity_pools
             address_pair_map :=
               (provider_tokens.address, addresses) :: s.address_pair_map })

/-- Router `add_liquidity`: sorts the buckets; if a pool exists for the pair,
delegates to it, otherwise creates one via `new_liquidity_pool`. -/
def add_liquidity (s : ElisionSwap) (token0 token1 : Bucket)
    (pt_address : Addr) :
    Except ErrorKind ((Option Bucket × Option Bucket × Bucket) × ElisionSwap) :=
  let sorted := sort_buckets token0 token1
  let bucket0 := sorted.1
  let bucket1 := sorted.2
  let addresses := (bucket0.address, bucket1.address)
  match lookupPool s.liquidity_pools addresses with
  | some liquidity_pool =>
    match liquidity_pool.add_liquidity bucket0 bucket1 with
    | .error e => .error e
    | .ok (rem0, rem1, provider_tokens, pool1) =>
      .ok ((some rem0, some rem1, provider_tokens),
           { s with liquidity_pools :=
               updatePool s.liquidity_pools addresses pool1 })
  | none =>
    match s.new_liquidity_pool bucket0 bucket1 pt_address with
    | .error e => .error e
    | .ok (provider_tokens, s1) => .ok ((none, none, provider_tokens), s1)

/-- Router `remove_liquidity`: resolves the pair via the reverse map
(NotFoundError if the provider-token address is unknown) and delegates.  The
source indexes `liquidity_pools[&addresses]` directly; the `none` branch of
the inner lookup is unreachable under the registry-consistency invariant. -/
def remove_liquidity (s : ElisionSwap) (provider_tokens : Bucket) :
    Except ErrorKind ((Bucket × Bucket) × ElisionSwap) :=
  match lookupPair s.address_pair_map provider_tokens.address with
  | none => .error .notFound
  | some addresses =>
    match lookupPool s.liquidity_pools addresses with
    | none => .error .notFound
    | some liquidity_pool =>
      match liquidity_pool.remove_liquidity provider_tokens with
      | .error e => .error e
      | .ok (bucket0, bucket1, pool1) =>
        .ok ((bucket0, bucket1),
             { s with liquidity_pools :=
                 updatePool s.liquidity_pools addresses pool1 })

/-- Router `swap`: asserts a pool exists for the pair (NotFoundError) and
delegates to `LiquidityPool.swap`. -/
def swap (s : ElisionSwap) (tokens : Bucket) (output_address : Addr) :
    Except ErrorKind (Bucket × ElisionSwap) :=
  let addresses := sort_addresses tokens.address output_address
  match lookupPool s.liquidity_pools addresses with
  | none => .error .notFound
  | some liquidity_pool =>
    match liquidity_pool.swap tokens with
    | .error e => .error e
    | .ok (pool1, output_tokens) =>
      .ok (output_tokens,
           { s with liquidity_pools :=
               updatePool s.liquidity_pools addresses pool1 })

/-- Router `swap_exact_tokens_for_tokens`. -/
def swap_exact_tokens_for_tokens (s : ElisionSwap) (tokens : Bucket)
    (output_address : Addr) (min_output_amount : Decimal) :
    Except ErrorKind (Bucket × ElisionSwap) :=
  let addresses := sort_addresses tokens.address output_address
  match lookupPool s.liquidity_pools addresses with
  | none => .error .notFound
  | some liquidity_pool =>
    match liquidity_pool.swap_exact_tokens_for_tokens tokens min_output_amount with
    | .error e => .error e
    | .ok (pool1, output_tokens) =>
      .ok (output_tokens,
           { s with liquidity_pools :=
               updatePool s.liquidity_pools addresses pool1 })

/-- Router `swap_tokens_for_exact_tokens`. -/
def swap_tokens_for_exact_tokens (s : ElisionSwap) (tokens : Bucket)
    (output_address : Addr) (output_amount : Decimal) :
    Except ErrorKind ((Bucket × Bucket) × ElisionSwap) :=
  let addresses := sort_addresses tokens.address output_address
  match lookupPool s.liquidity_pools addresses with
  | none => .error .notFound
  | some liquidity_pool =>
    match liquidity_pool.swap_tokens_for_exact_tokens tokens output_amount with
    | .error e => .error e
    | .ok (pool1, output_tokens, remainder) =>
      .ok ((output_tokens, remainder),
           { s with liquidity_pools :=
               updatePool s.liquidity_pools addresses pool1 })

/-- Router states reachable from `ElisionSwap.new` through the mutating
operations (the ledger serializes calls, so reachability is sequential). -/
inductive Reachable : ElisionSwap → Prop where
  | base : Reachable ElisionSwap.new
  | create {s s' : ElisionSwap} {t0 t1 : Bucket} {pt : Addr} {b : Bucket} :
      Reachable s → s.new_liquidity_pool t0 t1 pt = .ok (b, s') →
      Reachable s'
  | addLiq {s s' : ElisionSwap} {t0 t1 : Bucket} {pt : Addr}
      {r : Option Bucket × Option Bucket × Bucket} :
      Reachable s → s.add_liquidity t0 t1 pt = .ok (r, s') → Reachable s'
  | removeLiq {s s' : ElisionSwap} {pt : Bucket} {r : Bucket × Bucket} :
      Reachable s → s.remove_liquidity pt = .ok (r, s') → Reachable s'
  | doSwap {s s' : ElisionSwap} {t : Bucket} {a : Addr} {b : Bucket} :
      Reachable s → s.swap t a = .ok (b, s') → Reachable s'
  | doSwapExact {s s' : ElisionSwap} {t : Bucket} {a : Addr} {m : Decimal}
      {b : Bucket} :
      Reachable s → s.swap_exact_tokens_for_tokens t a m = .ok (b, s') →
      Reachable s'
  | doSwapForExact {s s' : ElisionSwap} {t : Bucket} {a : Addr} {m : Decimal}
      {r : Bucket × Bucket} :
      Reachable s → s.swap_tokens_for_exact_tokens t a m = .ok (r, s') →
      Reachable s'

/-- The router's two indices are mutually consistent: each registered pair
keys exactly one pool (no duplicate keys), and every provider-token identity
in the reverse map resolves to a registered pool. -/
def Consistent (s : ElisionSwap) : Prop :=
  (s.liquidity_pools.map Prod.fst).Nodup ∧
  ∀ pt pair, (pt, pair) ∈ s.address_pair_map →
    (lookupPool s.liquidity_pools pair).isSome

end ElisionSwap

/-! ### Properties of the canonical byte-vector order -/

theorem vecLt_irrefl (a : List Nat) : vecLt a a = false := by
  induction a with
  | nil => rfl
  | cons x xs ih => simp [vecLt, ih]

theorem vecLt_asymm (a b : List Nat) (h : vecLt a b = true) :
    vecLt b a = false := by
  induction a generalizing b with
  | nil =>
    cases b with
    | nil => simp [vecLt] at h
    | cons y ys => simp [vecLt]
  | cons x xs ih =>
    cases b with
    | nil => simp [vecLt] at h
    | cons y ys =>
      by_cases hxy : x < y
      · simp [vecLt, hxy, Nat.lt_asymm hxy, Nat.ne_of_gt hxy]
      · by_cases hyx : y < x
        · simp [vecLt, hxy, hyx] at h
        · have hxy' : ¬ y < x := hyx
          simp [vecLt, hxy, hyx] at h ⊢
          exact ih ys h

theorem vecLt_connex (a b : List Nat) (hab : vecLt a b = false)
    (hba : vecLt b a = false) : a = b := by
  induction a generalizing b with
  | nil =>
    cases b with
    | nil => rfl
    | cons y ys => simp [vecLt] at hab
  | cons x xs ih =>
    cases b with
    | nil => simp [vecLt] at hba
    | cons y ys =>
      by_cases hxy : x < y
      · simp [vecLt, hxy] at hab
      · by_cases hyx : y < x
        · simp [vecLt, hyx] at hba
        · have hx : x = y := Nat.le_antisymm (Nat.le_of_not_lt hyx) (Nat.le_of_not_lt hxy)
          subst hx
          simp [vecLt, Nat.lt_irrefl] at hab hba
          simp [ih ys hab hba]

/-- C6 (counterexample): the claim says `canonicalize(a,b)` puts the smaller
identifier first and fails on equal inputs.  On the concrete distinct pair
`[0], [1]` the code returns `([1], [0])` — the first component is strictly
greater, not less, under the canonical byte order — and on the equal pair
`[0], [0]` it returns `([0], [0])` instead of failing. -/
theorem sort_addresses_claim_false :
    sort_addresses [0] [1] = ([1], [0]) ∧
    vecLt (sort_addresses [0] [1]).1 (sort_addresses [0] [1]).2 = false ∧
    sort_addresses [0] [0] = ([0], [0]) := by
  refine ⟨by decide, by decide, by decide⟩

/-- C6 (amended): for distinct identifiers `sort_addresses` returns a pair
whose first component is strictly GREATER than the second under the canonical
byte-vector order, and on equal identifiers it returns the pair unchanged
without failing. -/
theorem sort_addresses_orders_desc (a b : Addr) (h : a ≠ b) :
    vecLt (sort_addresses a b).2 (sort_addresses a b).1 = true ∧
    sort_addresses b b = (b, b) := by
  constructor
  · unfold sort_addresses vecGt
    by_cases hba : vecLt b a = true
    · simp [hba]
    · have hba' : vecLt b a = false := by
        cases hvb : vecLt b a
        · rfl
        · exact absurd hvb hba
      have hab : vecLt a b = true := by
        cases hva : vecLt a b
        · exact absurd (vecLt_connex a b hva hba') h
        · rfl
      simp [hba', hab]
  · simp [sort_addresses, vecGt, vecLt_irrefl]

/-- C6 (amended, witness). -/
theorem sort_addresses_orders_desc_witness :
    vecLt (sort_addresses [0] [1]).2 (sort_addresses [0] [1]).1 = true ∧
    sort_addresses ([1] : Addr) [1] = ([1], [1]) :=
  sort_addresses_orders_desc [0] [1] (by decide)

/-! ### Quote formulas (C2, C4) -/

/-- The spec's scenario pool: reserves 1000/1000, fee 0.3%, canonical
addresses `[1] > [0]`, provider token `[2]`, bootstrap supply 100. -/
def demoPool : LiquidityPool :=
  { address0 := [1], address1 := [0], amount0 := 1000, amount1 := 1000
    provider_token_address := [2], provider_token_supply := 100
    pool_fee := 3 / 10 }

/-- C2: `quoteOutputForInput` returns `(dx·r·y)/(x + r·dx)` with
`r = (100−fee)/100` for a member input asset, fails with MembershipError for
a non-member, and on the scenario pool (reserves 1000/1000, fee 0.3) an input
of 10 yields `997000/100997 ≈ 9.87`. -/
theorem calculate_output_amount_spec (p : LiquidityPool) (a : Addr)
    (dx : Decimal) :
    (p.belongs_to_pool a = true →
      p.calculate_output_amount a dx =
        .ok ((dx * ((100 - p.pool_fee) / 100) * p.reserve (p.otherAddr a)) /
             (p.reserve a + ((100 - p.pool_fee) / 100) * dx))) ∧
    (p.belongs_to_pool a = false →
      p.calculate_output_amount a dx = .error .membership) ∧
    (demoPool.calculate_output_amount [1] 10 = .ok (997000 / 100997) ∧
      (987 / 100 : ℚ) < 997000 / 100997 ∧ (997000 / 100997 : ℚ) < 988 / 100) := by
  refine ⟨fun h => ?_, fun h => ?_, ?_, by norm_num, by norm_num⟩
  · simp [LiquidityPool.calculate_output_amount, h]
  · simp [LiquidityPool.calculate_output_amount, h]
  · show demoPool.calculate_output_amount [1] 10 = _
    simp [LiquidityPool.calculate_output_amount, LiquidityPool.belongs_to_pool,
      LiquidityPool.reserve, LiquidityPool.otherAddr, demoPool]
    norm_num

/-- C2 (witness): the formula instance at the scenario pool for the member
asset `[1]`, and the MembershipError for the non-member asset `[5]`. -/
theorem calculate_output_amount_spec_witness :
    demoPool.calculate_output_amount [1] 10 = .ok (997000 / 100997) ∧
    demoPool.calculate_output_amount [5] 10 = .error .membership :=
  ⟨(calculate_output_amount_spec demoPool [1] 10).2.2.1,
   (calculate_output_amount_spec demoPool [5] 10).2.1 (by decide)⟩

/-- C4 (code divergence): `calculate_input_amount` performs no
`outAmt ≥ reserve` check.  On the scenario pool, requesting an output of 2000
from the 1000-reserve side returns the NEGATIVE "required input"
`-2000000/997 ≈ -2006` instead of failing with LiquidityError (and at
`outAmt = reserve` the source divides by zero). -/
theorem calculate_input_amount_missing_liquidity_check :
    demoPool.calculate_input_amount [0] 2000 = .ok (-(2000000 / 997)) ∧
    (-(2000000 / 997) : ℚ) < 0 ∧
    demoPool.reserve [0] ≤ 2000 := by
  refine ⟨?_, by norm_num, by norm_num [demoPool, LiquidityPool.reserve]⟩
  simp [LiquidityPool.calculate_input_amount, LiquidityPool.belongs_to_pool,
    LiquidityPool.reserve, LiquidityPool.otherAddr, demoPool]
  norm_num

/-! ### The constant-product invariant across `swap` (C1) -/

/-- Arithmetic core of the swap: with positive reserves `x, y`, positive
input `dx` and fee `f ∈ [0,100]`, the quoted output
`dy = (dx·r·y)/(x + r·dx)` fits in the reserve, the product `(x+dx)(y−dy)`
dominates `x·y`, and equals it exactly at `f = 0`. -/
theorem swap_k_core (x y dx f : ℚ) (hx : 0 < x) (hy : 0 < y) (hdx : 0 < dx)
    (hf0 : 0 ≤ f) (hf1 : f ≤ 100) :
    (dx * ((100 - f) / 100) * y) / (x + ((100 - f) / 100) * dx) ≤ y ∧
    x * y ≤ (x + dx) *
      (y - (dx * ((100 - f) / 100) * y) / (x + ((100 - f) / 100) * dx)) ∧
    (f = 0 → (x + dx) *
      (y - (dx * ((100 - f) / 100) * y) / (x + ((100 - f) / 100) * dx)) = x * y) := by
  set r : ℚ := (100 - f) / 100 with hr
  have hr0 : 0 ≤ r := by
    rw [hr]; exact div_nonneg (by linarith) (by norm_num)
  have hr1 : r ≤ 1 := by
    rw [hr, div_le_one (by norm_num)]; linarith
  have hd : 0 < x + r * dx :=
    add_pos_of_pos_of_nonneg hx (mul_nonneg hr0 hdx.le)
  have hsub : y - (dx * r * y) / (x + r * dx) = x * y / (x + r * dx) := by
    field_simp
    ring
  refine ⟨?_, ?_, ?_⟩
  · rw [div_le_iff₀ hd]
    nlinarith [mul_pos hy hx, mul_nonneg (mul_nonneg hr0 hdx.le) hy.le]
  · rw [hsub, mul_div_assoc', le_div_iff₀ hd]
    nlinarith [mul_pos hx hy, mul_nonneg (mul_pos hx hy).le hdx.le]
  · intro hf
    have hrone : r = 1 := by rw [hr, hf]; norm_num
    have hxdx : x + dx ≠ 0 := by positivity
    rw [hsub, hrone, one_mul]
    field_simp

/-- Evaluation of `swap` when the input bucket carries the pool's first
asset: quote against pre-swap reserves, withdraw the sibling side, deposit
the input. -/
theorem swap_eval_left (p : LiquidityPool) (dx : ℚ)
    (hne : p.address0 ≠ p.address1) :
    p.swap ⟨p.address0, dx⟩ =
      if p.amount1 <
          (dx * ((100 - p.pool_fee) / 100) * p.amount1) /
            (p.amount0 + ((100 - p.pool_fee) / 100) * dx) then
        .error .liquidity
      else
        .ok ({ p with
                 amount0 := p.amount0 + dx
                 amount1 := p.amount1 -
                   (dx * ((100 - p.pool_fee) / 100) * p.amount1) /
                     (p.amount0 + ((100 - p.pool_fee) / 100) * dx) },
             ⟨p.address1,
              (dx * ((100 - p.pool_fee) / 100) * p.amount1) /
                (p.amount0 + ((100 - p.pool_fee) / 100) * dx)⟩) := by
  simp only [LiquidityPool.swap, LiquidityPool.calculate_output_amount,
    LiquidityPool.belongs_to_pool, LiquidityPool.reserve,
    LiquidityPool.otherAddr, LiquidityPool.withdraw, LiquidityPool.deposit,
    LiquidityPool.credit, LiquidityPool.debit]
  by_cases hlt : p.amount1 <
      dx * ((100 - p.pool_fee) / 100) * p.amount1 /
        (p.amount0 + (100 - p.pool_fee) / 100 * dx) <;>
    simp [hlt, hne, Ne.symm hne]

/-- Evaluation of `swap` when the input bucket carries the pool's second
asset. -/
theorem swap_eval_right (p : LiquidityPool) (dx : ℚ)
    (hne : p.address0 ≠ p.address1) :
    p.swap ⟨p.address1, dx⟩ =
      if p.amount0 <
          (dx * ((100 - p.pool_fee) / 100) * p.amount0) /
            (p.amount1 + ((100 - p.pool_fee) / 100) * dx) then
        .error .liquidity
      else
        .ok ({ p with
                 amount1 := p.amount1 + dx
                 amount0 := p.amount0 -
                   (dx * ((100 - p.pool_fee) / 100) * p.amount0) /
                     (p.amount1 + ((100 - p.pool_fee) / 100) * dx) },
             ⟨p.address0,
              (dx * ((100 - p.pool_fee) / 100) * p.amount0) /
                (p.amount1 + ((100 - p.pool_fee) / 100) * dx)⟩) := by
  simp only [LiquidityPool.swap, LiquidityPool.calculate_output_amount,
    LiquidityPool.belongs_to_pool, LiquidityPool.reserve,
    LiquidityPool.otherAddr, LiquidityPool.withdraw, LiquidityPool.deposit,
    LiquidityPool.credit, LiquidityPool.debit]
  by_cases hlt : p.amount0 <
      dx * ((100 - p.pool_fee) / 100) * p.amount0 /
        (p.amount1 + (100 - p.pool_fee) / 100 * dx) <;>
    simp [hlt, hne, Ne.symm hne]

/-- C1: for a pool with two distinct assets, positive reserves and fee in
`[0,100]`, a swap with a non-empty input bucket succeeds and leaves
`k = reserve0·reserve1` non-decreasing; at `fee = 0` the product is exactly
preserved. -/
theorem swap_k_nondecreasing (p : LiquidityPool) (a : Addr) (dx : ℚ)
    (hne : p.address0 ≠ p.address1)
    (hmem : p.belongs_to_pool a = true)
    (h0 : 0 < p.amount0) (h1 : 0 < p.amount1)
    (hf0 : 0 ≤ p.pool_fee) (hf1 : p.pool_fee ≤ 100)
    (hdx : 0 < dx) :
    ∃ p' out, p.swap ⟨a, dx⟩ = .ok (p', out) ∧
      p.k ≤ p'.k ∧ (p.pool_fee = 0 → p'.k = p.k) := by
  have hmem' : a = p.address0 ∨ a = p.address1 := by
    simpa [LiquidityPool.belongs_to_pool] using hmem
  rcases hmem' with h | h
  · subst h
    obtain ⟨hdy, hk, hk0⟩ :=
      swap_k_core p.amount0 p.amount1 dx p.pool_fee h0 h1 hdx hf0 hf1
    rw [swap_eval_left p dx hne, if_neg (not_lt.mpr hdy)]
    exact ⟨_, _, rfl, by simpa [LiquidityPool.k] using hk,
           fun hf => by simpa [LiquidityPool.k] using hk0 hf⟩
  · subst h
    obtain ⟨hdy, hk, hk0⟩ :=
      swap_k_core p.amount1 p.amount0 dx p.pool_fee h1 h0 hdx hf0 hf1
    rw [swap_eval_right p dx hne, if_neg (not_lt.mpr hdy)]
    refine ⟨_, _, rfl, ?_, fun hf => ?_⟩
    · simp only [LiquidityPool.k]
      calc p.amount0 * p.amount1 = p.amount1 * p.amount0 := by ring
        _ ≤ _ := by simpa [mul_comm] using hk
    · simp only [LiquidityPool.k]
      have := hk0 hf
      calc _ = (p.amount1 + dx) *
            (p.amount0 - (dx * ((100 - p.pool_fee) / 100) * p.amount0) /
              (p.amount1 + ((100 - p.pool_fee) / 100) * dx)) := by ring
        _ = p.amount1 * p.amount0 := this
        _ = p.amount0 * p.amount1 := by ring

/-- C1 (witness): the scenario pool with reserves 1000/1000 and fee 0.3. -/
theorem swap_k_nondecreasing_witness :
    ∃ p' out, demoPool.swap ⟨[1], 10⟩ = .ok (p', out) ∧
      demoPool.k ≤ p'.k ∧ (demoPool.pool_fee = 0 → p'.k = demoPool.k) :=
  swap_k_nondecreasing demoPool [1] 10 (by decide) (by decide)
    (by norm_num [demoPool]) (by norm_num [demoPool])
    (by norm_num [demoPool]) (by norm_num [demoPool]) (by norm_num)

/-! ### Quote roundtrip (C3) -/

/-- Arithmetic core of the quote roundtrip: feeding the forward quote
`dy = (dx·r·y)/(x + r·dx)` through the inverse quote `(dy·x)/(r·(y−dy))`
recovers exactly `dx`. -/
theorem roundtrip_core (x y dx f : ℚ) (hx : 0 < x) (hy : 0 < y)
    (hdx : 0 < dx) (hf0 : 0 ≤ f) (hf1 : f < 100) :
    ((dx * ((100 - f) / 100) * y) / (x + ((100 - f) / 100) * dx) * x) /
      (((100 - f) / 100) *
        (y - (dx * ((100 - f) / 100) * y) / (x + ((100 - f) / 100) * dx))) = dx := by
  set r : ℚ := (100 - f) / 100 with hr
  have hr0 : 0 < r := by rw [hr]; exact div_pos (by linarith) (by norm_num)
  have hd : 0 < x + r * dx :=
    add_pos_of_pos_of_nonneg hx (mul_nonneg hr0.le hdx.le)
  have hsub : y - (dx * r * y) / (x + r * dx) = x * y / (x + r * dx) := by
    field_simp
    ring
  have hxne : x ≠ 0 := hx.ne'
  have hyne : y ≠ 0 := hy.ne'
  have hdne : x + r * dx ≠ 0 := hd.ne'
  have hrne : r ≠ 0 := hr0.ne'
  rw [hsub]
  field_simp
  ring

/-- C3: for a pool with distinct assets, positive reserves, fee in `[0,100)`
and a positive input amount, quoting the output for the input and then the
input for that output against the same pre-trade reserves recovers an input
amount ≤ the original (in the exact model, exactly the original). -/
theorem quote_roundtrip (p : LiquidityPool) (a : Addr) (dx : ℚ)
    (hne : p.address0 ≠ p.address1)
    (hmem : p.belongs_to_pool a = true)
    (h0 : 0 < p.amount0) (h1 : 0 < p.amount1)
    (hf0 : 0 ≤ p.pool_fee) (hf1 : p.pool_fee < 100)
    (hdx : 0 < dx) :
    ∃ dy dx', p.calculate_output_amount a dx = .ok dy ∧
      p.calculate_input_amount (p.otherAddr a) dy = .ok dx' ∧ dx' ≤ dx := by
  have hmem' : a = p.address0 ∨ a = p.address1 := by
    simpa [LiquidityPool.belongs_to_pool] using hmem
  rcases hmem' with h | h
  · subst h
    refine ⟨(dx * ((100 - p.pool_fee) / 100) * p.amount1) /
        (p.amount0 + ((100 - p.pool_fee) / 100) * dx), dx, ?_, ?_, le_refl dx⟩
    · simp [LiquidityPool.calculate_output_amount, LiquidityPool.belongs_to_pool,
        LiquidityPool.reserve, LiquidityPool.otherAddr, Ne.symm hne]
    · simp only [LiquidityPool.calculate_input_amount, LiquidityPool.belongs_to_pool,
        LiquidityPool.reserve, LiquidityPool.otherAddr]
      simp [Ne.symm hne, hne]
      exact roundtrip_core p.amount0 p.amount1 dx p.pool_fee h0 h1 hdx hf0 hf1
  · subst h
    refine ⟨(dx * ((100 - p.pool_fee) / 100) * p.amount0) /
        (p.amount1 + ((100 - p.pool_fee) / 100) * dx), dx, ?_, ?_, le_refl dx⟩
    · simp [LiquidityPool.calculate_output_amount, LiquidityPool.belongs_to_pool,
        LiquidityPool.reserve, LiquidityPool.otherAddr, Ne.symm hne, hne]
    · simp only [LiquidityPool.calculate_input_amount, LiquidityPool.belongs_to_pool,
        LiquidityPool.reserve, LiquidityPool.otherAddr]
      simp [Ne.symm hne, hne]
      exact roundtrip_core p.amount1 p.amount0 dx p.pool_fee h1 h0 hdx hf0 hf1

/-- C3 (witness): the roundtrip at the scenario pool. -/
theorem quote_roundtrip_witness :
    ∃ dy dx', demoPool.calculate_output_amount [1] 10 = .ok dy ∧
      demoPool.calculate_input_amount (demoPool.otherAddr [1]) dy = .ok dx' ∧
      dx' ≤ 10 :=
  quote_roundtrip demoPool [1] 10 (by decide) (by decide)
    (by norm_num [demoPool]) (by norm_num [demoPool])
    (by norm_num [demoPool]) (by norm_num [demoPool]) (by norm_num)

/-- Shared helper: `sort_addresses` is symmetric in its two arguments. -/
theorem sort_addresses_symm (a b : Addr) :
    sort_addresses a b = sort_addresses b a := by
  unfold sort_addresses vecGt
  cases hba : vecLt b a with
  | true =>
    have := vecLt_asymm b a hba
    simp [this]
  | false =>
    cases hab : vecLt a b with
    | true => simp
    | false =>
      have : b = a := vecLt_connex b a hba hab
      simp [this]

/-- C7: `canonicalize(A,B) == canonicalize(B,A)` — `sort_addresses` is
symmetric in its arguments, so both orders resolve to the same `PairKey` and
hence (via `pool_exists`) the same pool. -/
theorem sort_addresses_comm (a b : Addr) :
    sort_addresses a b = sort_addresses b a :=
  sort_addresses_symm a b

/-! ### addLiquidity / removeLiquidity roundtrip (C5) -/

/-- `sort_buckets` is symmetric in its two buckets when the assets differ. -/
theorem sort_buckets_comm (b0 b1 : Bucket) (h : b0.address ≠ b1.address) :
    sort_buckets b0 b1 = sort_buckets b1 b0 := by
  unfold sort_buckets
  rw [sort_addresses_symm b1.address b0.address]
  unfold sort_addresses
  by_cases hg : vecGt b0.address b1.address <;> simp [hg, h, Ne.symm h]

/-- `add_liquidity` gives the same result for either argument order (the
source sorts the buckets before doing anything order-sensitive). -/
theorem add_liquidity_comm (p : LiquidityPool) (t0 t1 : Bucket)
    (h : t0.address ≠ t1.address) :
    p.add_liquidity t0 t1 = p.add_liquidity t1 t0 := by
  unfold LiquidityPool.add_liquidity
  rw [sort_buckets_comm t0 t1 h]
  by_cases h0 : p.belongs_to_pool t0.address = true <;>
    by_cases h1 : p.belongs_to_pool t1.address = true <;>
      by_cases e0 : t0.amount = 0 <;>
        by_cases e1 : t1.amount = 0 <;>
          simp [h0, h1, e0, e1]

/-- On a pool whose addresses are in canonical order, `sort_buckets` of the
two member buckets in canonical order is the identity. -/
theorem sort_buckets_canonical (a0 a1 : Addr) (da db : ℚ)
    (hcanon : vecGt a0 a1 = true) :
    sort_buckets ⟨a0, da⟩ ⟨a1, db⟩ = (⟨a0, da⟩, ⟨a1, db⟩) := by
  simp [sort_buckets, sort_addresses, hcanon]

/-- Arithmetic core of the add/remove roundtrip: removing the minted
percentage `pa/(s+pa)` with `pa = a0·s/m` takes each reserve back to its
pre-deposit value, provided the deposit respected the reserve ratio
(`a1·m = n·a0`), and the two withdrawals never overdraw. -/
theorem add_remove_core (m n s a0 a1 : ℚ) (hm : 0 < m) (hn : 0 < n)
    (hs : 0 < s) (ha0 : 0 ≤ a0) (ha1 : 0 ≤ a1)
    (hrel : a1 * m = n * a0) :
    (m + a0) * (a0 * s / m / (s + a0 * s / m)) ≤ m + a0 ∧
    (n + a1) * (a0 * s / m / (s + a0 * s / m)) ≤ n + a1 ∧
    (m + a0) - (m + a0) * (a0 * s / m / (s + a0 * s / m)) = m ∧
    (n + a1) - (n + a1) * (a0 * s / m / (s + a0 * s / m)) = n := by
  have hpa : 0 ≤ a0 * s / m := by positivity
  have hden : 0 < s + a0 * s / m := by positivity
  have hpct1 : a0 * s / m / (s + a0 * s / m) ≤ 1 := by
    rw [div_le_one hden]; linarith
  have hmne : m ≠ 0 := hm.ne'
  have hsne : s ≠ 0 := hs.ne'
  have hdenne : s + a0 * s / m ≠ 0 := hden.ne'
  refine ⟨mul_le_of_le_one_right (by linarith) hpct1,
          mul_le_of_le_one_right (by linarith) hpct1, ?_, ?_⟩
  · field_simp
    ring
  · field_simp
    linear_combination s * hrel

/-- Removing the full minted share amount from the post-deposit pool restores
both reserves and the share supply exactly. -/
theorem remove_after_add (p : LiquidityPool) (a0 a1 : ℚ)
    (hne : p.address0 ≠ p.address1)
    (hm : 0 < p.amount0) (hn : 0 < p.amount1)
    (hs : 0 < p.provider_token_supply)
    (ha0 : 0 ≤ a0) (ha1 : 0 ≤ a1)
    (hrel : a1 * p.amount0 = p.amount1 * a0) :
    ∃ out0 out1 p2,
      ({ p with
           amount0 := p.amount0 + a0
           amount1 := p.amount1 + a1
           provider_token_supply := p.provider_token_supply +
             a0 * p.provider_token_supply / p.amount0 } :
        LiquidityPool).remove_liquidity
          ⟨p.provider_token_address,
           a0 * p.provider_token_supply / p.amount0⟩ =
        .ok (out0, out1, p2) ∧
      p2.amount0 = p.amount0 ∧ p2.amount1 = p.amount1 ∧
      p2.provider_token_supply = p.provider_token_supply := by
  obtain ⟨hb0, hb1, he0, he1⟩ :=
    add_remove_core p.amount0 p.amount1 p.provider_token_supply a0 a1
      hm hn hs ha0 ha1 hrel
  have heval :
      ({ p with
           amount0 := p.amount0 + a0
           amount1 := p.amount1 + a1
           provider_token_supply := p.provider_token_supply +
             a0 * p.provider_token_supply / p.amount0 } :
        LiquidityPool).remove_liquidity
          ⟨p.provider_token_address,
           a0 * p.provider_token_supply / p.amount0⟩ =
      .ok (⟨p.address0, (p.amount0 + a0) *
              (a0 * p.provider_token_supply / p.amount0 /
                (p.provider_token_supply +
                  a0 * p.provider_token_supply / p.amount0))⟩,
           ⟨p.address1, (p.amount1 + a1) *
              (a0 * p.provider_token_supply / p.amount0 /
                (p.provider_token_supply +
                  a0 * p.provider_token_supply / p.amount0))⟩,
           { p with
               amount0 := p.amount0 + a0 - (p.amount0 + a0) *
                 (a0 * p.provider_token_supply / p.amount0 /
                   (p.provider_token_supply +
                     a0 * p.provider_token_supply / p.amount0))
               amount1 := p.amount1 + a1 - (p.amount1 + a1) *
                 (a0 * p.provider_token_supply / p.amount0 /
                   (p.provider_token_supply +
                     a0 * p.provider_token_supply / p.amount0))
               provider_token_supply := p.provider_token_supply +
                 a0 * p.provider_token_supply / p.amount0 -
                 a0 * p.provider_token_supply / p.amount0 }) := by
    simp only [LiquidityPool.remove_liquidity, LiquidityPool.withdraw,
      LiquidityPool.belongs_to_pool, LiquidityPool.reserve,
      LiquidityPool.debit]
    simp [hne, Ne.symm hne, not_lt.mpr hb0, not_lt.mpr hb1]
  refine ⟨_, _, _, heval, ?_, ?_, ?_⟩
  · simpa using he0
  · simpa using he1
  · simp

/-- Add-then-remove pipeline on canonically ordered member buckets: the
deposit branch (full, ratio-matching, or proportionally scaled) always
satisfies `a1·m = n·a0`, so removing the full minted share amount restores
the pre-deposit reserves and supply exactly. -/
theorem add_remove_canonical (p : LiquidityPool) (da db : ℚ)
    (hne : p.address0 ≠ p.address1)
    (hcanon : vecGt p.address0 p.address1 = true)
    (hm : 0 < p.amount0) (hn : 0 < p.amount1)
    (hs : 0 < p.provider_token_supply)
    (hda : 0 < da) (hdb : 0 < db) :
    ∃ rem0 rem1 minted p1 out0 out1 p2,
      p.add_liquidity ⟨p.address0, da⟩ ⟨p.address1, db⟩ =
        .ok (rem0, rem1, minted, p1) ∧
      p1.remove_liquidity minted = .ok (out0, out1, p2) ∧
      p2.amount0 = p.amount0 ∧ p2.amount1 = p.amount1 ∧
      p2.provider_token_supply = p.provider_token_supply := by
  have hsort := sort_buckets_canonical p.address0 p.address1 da db hcanon
  by_cases hratio : p.amount0 / p.amount1 = da / db
  · have hadd : p.add_liquidity ⟨p.address0, da⟩ ⟨p.address1, db⟩ =
        .ok (⟨p.address0, da - da⟩, ⟨p.address1, db - db⟩,
             ⟨p.provider_token_address,
              da * p.provider_token_supply / p.amount0⟩,
             { p with
                 amount0 := p.amount0 + da
                 amount1 := p.amount1 + db
                 provider_token_supply := p.provider_token_supply +
                   da * p.provider_token_supply / p.amount0 }) := by
      simp [LiquidityPool.add_liquidity, LiquidityPool.belongs_to_pool,
        LiquidityPool.reserve, LiquidityPool.credit, hsort, hne, Ne.symm hne,
        hda.ne', hdb.ne', hm.ne', hn.ne', hs.ne', hratio]
    have hrel : db * p.amount0 = p.amount1 * da := by
      have h := (div_eq_div_iff hn.ne' hdb.ne').mp hratio
      linear_combination h
    obtain ⟨out0, out1, p2, hrem, he0, he1, he2⟩ :=
      remove_after_add p da db hne hm hn hs hda.le hdb.le hrel
    exact ⟨_, _, _, _, out0, out1, p2, hadd, hrem, he0, he1, he2⟩
  · by_cases hlt : p.amount0 / p.amount1 < da / db
    · have hadd : p.add_liquidity ⟨p.address0, da⟩ ⟨p.address1, db⟩ =
          .ok (⟨p.address0, da - db * p.amount0 / p.amount1⟩,
               ⟨p.address1, db - db⟩,
               ⟨p.provider_token_address,
                db * p.amount0 / p.amount1 * p.provider_token_supply / p.amount0⟩,
               { p with
                   amount0 := p.amount0 + db * p.amount0 / p.amount1
                   amount1 := p.amount1 + db
                   provider_token_supply := p.provider_token_supply +
                     db * p.amount0 / p.amount1 * p.provider_token_supply /
                       p.amount0 }) := by
        simp [LiquidityPool.add_liquidity, LiquidityPool.belongs_to_pool,
          LiquidityPool.reserve, LiquidityPool.credit, hsort, hne, Ne.symm hne,
          hda.ne', hdb.ne', hm.ne', hn.ne', hs.ne', hratio, hlt]
      have hrel : db * p.amount0 = p.amount1 * (db * p.amount0 / p.amount1) := by
        field_simp
      have ha0 : (0 : ℚ) ≤ db * p.amount0 / p.amount1 := by positivity
      obtain ⟨out0, out1, p2, hrem, he0, he1, he2⟩ :=
        remove_after_add p (db * p.amount0 / p.amount1) db hne hm hn hs
          ha0 hdb.le hrel
      exact ⟨_, _, _, _, out0, out1, p2, hadd, hrem, he0, he1, he2⟩
    · have hadd : p.add_liquidity ⟨p.address0, da⟩ ⟨p.address1, db⟩ =
          .ok (⟨p.address0, da - da⟩,
               ⟨p.address1, db - da * p.amount1 / p.amount0⟩,
               ⟨p.provider_token_address,
                da * p.provider_token_supply / p.amount0⟩,
               { p with
                   amount0 := p.amount0 + da
                   amount1 := p.amount1 + da * p.amount1 / p.amount0
                   provider_token_supply := p.provider_token_supply +
                     da * p.provider_token_supply / p.amount0 }) := by
        simp [LiquidityPool.add_liquidity, LiquidityPool.belongs_to_pool,
          LiquidityPool.reserve, LiquidityPool.credit, hsort, hne, Ne.symm hne,
          hda.ne', hdb.ne', hm.ne', hn.ne', hs.ne', hratio, hlt]
      have hrel : da * p.amount1 / p.amount0 * p.amount0 = p.amount1 * da := by
        field_simp
        ring
      have ha1 : (0 : ℚ) ≤ da * p.amount1 / p.amount0 := by positivity
      obtain ⟨out0, out1, p2, hrem, he0, he1, he2⟩ :=
        remove_after_add p da (da * p.amount1 / p.amount0) hne hm hn hs
          hda.le ha1 hrel
      exact ⟨_, _, _, _, out0, out1, p2, hadd, hrem, he0, he1, he2⟩

/-- C5: for a pool with positive reserves and positive share supply,
`addLiquidity` with two non-empty member-asset buckets followed by
`removeLiquidity` of the full minted share amount returns both reserves to
their pre-deposit values (exactly, in the exact-arithmetic model — within
the claim's rounding epsilon). -/
theorem add_then_remove_restores_reserves (p : LiquidityPool)
    (t0 t1 : Bucket)
    (hne : p.address0 ≠ p.address1)
    (hcanon : vecGt p.address0 p.address1 = true)
    (haddr : t0.address = p.address0 ∧ t1.address = p.address1 ∨
             t0.address = p.address1 ∧ t1.address = p.address0)
    (hm : 0 < p.amount0) (hn : 0 < p.amount1)
    (hs : 0 < p.provider_token_supply)
    (hda : 0 < t0.amount) (hdb : 0 < t1.amount) :
    ∃ rem0 rem1 minted p1 out0 out1 p2,
      p.add_liquidity t0 t1 = .ok (rem0, rem1, minted, p1) ∧
      p1.remove_liquidity minted = .ok (out0, out1, p2) ∧
      p2.amount0 = p.amount0 ∧ p2.amount1 = p.amount1 := by
  obtain ⟨ta, da⟩ := t0
  obtain ⟨tb, db⟩ := t1
  change 0 < da at hda
  change 0 < db at hdb
  rcases haddr with ⟨h0, h1⟩ | ⟨h0, h1⟩ <;>
    (change _ = _ at h0; change _ = _ at h1; subst h0; subst h1)
  · obtain ⟨rem0, rem1, minted, p1, out0, out1, p2, hadd, hrem, he0, he1, _⟩ :=
      add_remove_canonical p da db hne hcanon hm hn hs hda hdb
    exact ⟨rem0, rem1, minted, p1, out0, out1, p2, hadd, hrem, he0, he1⟩
  · rw [show (p.add_liquidity ⟨p.address1, da⟩ ⟨p.address0, db⟩ =
        p.add_liquidity ⟨p.address0, db⟩ ⟨p.address1, da⟩) from
      add_liquidity_comm p ⟨p.address1, da⟩ ⟨p.address0, db⟩ (Ne.symm hne)]
    obtain ⟨rem0, rem1, minted, p1, out0, out1, p2, hadd, hrem, he0, he1, _⟩ :=
      add_remove_canonical p db da hne hcanon hm hn hs hdb hda
    exact ⟨rem0, rem1, minted, p1, out0, out1, p2, hadd, hrem, he0, he1⟩

/-- C5 (witness): a ratio-matching deposit of 100/100 on the scenario pool,
then removal of the full minted amount. -/
theorem add_then_remove_restores_reserves_witness :
    ∃ rem0 rem1 minted p1 out0 out1 p2,
      demoPool.add_liquidity ⟨[1], 100⟩ ⟨[0], 100⟩ =
        .ok (rem0, rem1, minted, p1) ∧
      p1.remove_liquidity minted = .ok (out0, out1, p2) ∧
      p2.amount0 = demoPool.amount0 ∧ p2.amount1 = demoPool.amount1 :=
  add_then_remove_restores_reserves demoPool ⟨[1], 100⟩ ⟨[0], 100⟩
    (by decide) (by decide) (Or.inl ⟨by decide, by decide⟩)
    (by norm_num [demoPool]) (by norm_num [demoPool])
    (by norm_num [demoPool]) (by norm_num) (by norm_num)

/-! ### swapExactIn slippage (C8) and frame conditions (C10) -/

/-- Concrete evaluation of `swap` on the scenario pool for the witnesses
below. -/
theorem demoPool_swap_eval :
    demoPool.swap ⟨[1], 10⟩ =
      .ok ({ demoPool with
               amount0 := 1010
               amount1 := 1000 - 997000 / 100997 },
           ⟨[0], 997000 / 100997⟩) := by
  show demoPool.swap ⟨demoPool.address0, 10⟩ = _
  rw [swap_eval_left demoPool 10 (by decide)]
  norm_num [demoPool]

/-- C8: whenever `swap` would succeed with an output strictly below the
caller's `min_amount_out`, `swapExactIn` fails with SlippageError; the
failed assertion aborts the whole transaction (spec §5), so the pool's
reserves are the untouched pre-state. -/
theorem swap_exact_in_slippage (p : LiquidityPool) (tokens : Bucket)
    (min_amount_out : ℚ) (p1 : LiquidityPool) (out : Bucket)
    (hswap : p.swap tokens = .ok (p1, out))
    (hlt : out.amount < min_amount_out) :
    p.swap_exact_tokens_for_tokens tokens min_amount_out =
      .error .slippage := by
  have hmem : p.belongs_to_pool tokens.address = true := by
    by_contra hb
    simp [LiquidityPool.swap, hb] at hswap
  simp [LiquidityPool.swap_exact_tokens_for_tokens, hmem, hswap,
    not_le.mpr hlt]

/-- C8 (witness): the scenario pool's true output for a 10-token input is
`997000/100997 < 10`, so `minOut = 10` trips the slippage assertion. -/
theorem swap_exact_in_slippage_witness :
    demoPool.swap_exact_tokens_for_tokens ⟨[1], 10⟩ 10 = .error .slippage :=
  swap_exact_in_slippage demoPool ⟨[1], 10⟩ 10
    ({ demoPool with amount0 := 1010, amount1 := 1000 - 997000 / 100997 })
    ⟨[0], 997000 / 100997⟩ demoPool_swap_eval (by norm_num)

/-- The pool-identity frame: the fee, the provider-share-token identity, and
the two vault asset addresses agree between two pool states. -/
def PreservesIdentity (p q : LiquidityPool) : Prop :=
  q.address0 = p.address0 ∧ q.address1 = p.address1 ∧
  q.pool_fee = p.pool_fee ∧
  q.provider_token_address = p.provider_token_address

theorem preservesIdentity_refl (p : LiquidityPool) : PreservesIdentity p p :=
  ⟨rfl, rfl, rfl, rfl⟩

theorem preservesIdentity_trans {p q r : LiquidityPool}
    (h1 : PreservesIdentity p q) (h2 : PreservesIdentity q r) :
    PreservesIdentity p r :=
  ⟨h2.1.trans h1.1, h2.2.1.trans h1.2.1, h2.2.2.1.trans h1.2.2.1,
   h2.2.2.2.trans h1.2.2.2⟩

theorem credit_frame (p : LiquidityPool) (a : Addr) (x : Decimal) :
    PreservesIdentity p (p.credit a x) := by
  unfold LiquidityPool.credit
  split <;> [skip; split] <;> exact ⟨rfl, rfl, rfl, rfl⟩

theorem debit_frame (p : LiquidityPool) (a : Addr) (x : Decimal) :
    PreservesIdentity p (p.debit a x) := by
  unfold LiquidityPool.debit
  split <;> [skip; split] <;> exact ⟨rfl, rfl, rfl, rfl⟩

theorem deposit_frame (p : LiquidityPool) (b : Bucket) (p1 : LiquidityPool)
    (h : p.deposit b = .ok p1) : PreservesIdentity p p1 := by
  unfold LiquidityPool.deposit at h
  split at h
  · cases h
    exact credit_frame p b.address b.amount
  · cases h

theorem withdraw_frame (p : LiquidityPool) (a : Addr) (x : Decimal)
    (p1 : LiquidityPool) (out : Bucket)
    (h : p.withdraw a x = .ok (p1, out)) : PreservesIdentity p p1 := by
  unfold LiquidityPool.withdraw at h
  split at h
  · split at h
    · cases h
    · cases h
      exact debit_frame p a x
  · cases h

theorem swap_frame (p : LiquidityPool) (t : Bucket) (p1 : LiquidityPool)
    (out : Bucket) (h : p.swap t = .ok (p1, out)) : PreservesIdentity p p1 := by
  unfold LiquidityPool.swap at h
  split at h
  · split at h
    · cases h
    · split at h
      · cases h
      · split at h
        · cases h
        · cases h
          rename_i pw ob _ pd hd hw
          exact preservesIdentity_trans
            (withdraw_frame _ _ _ _ _ (by assumption))
            (deposit_frame _ _ _ (by assumption))
  · cases h

theorem swap_exact_frame (p : LiquidityPool) (t : Bucket) (m : Decimal)
    (p1 : LiquidityPool) (out : Bucket)
    (h : p.swap_exact_tokens_for_tokens t m = .ok (p1, out)) :
    PreservesIdentity p p1 := by
  unfold LiquidityPool.swap_exact_tokens_for_tokens at h
  split at h
  · split at h
    · cases h
    · split at h
      · cases h
        exact swap_frame _ _ _ _ (by assumption)
      · cases h
  · cases h

theorem swap_for_exact_frame (p : LiquidityPool) (t : Bucket) (m : Decimal)
    (p1 : LiquidityPool) (out rem : Bucket)
    (h : p.swap_tokens_for_exact_tokens t m = .ok (p1, out, rem)) :
    PreservesIdentity p p1 := by
  unfold LiquidityPool.swap_tokens_for_exact_tokens at h
  split at h
  · split at h
    · cases h
    · split at h
      · cases h
      · split at h
        · cases h
        · split at h
          · cases h
          · cases h
            exact preservesIdentity_trans
              (deposit_frame _ _ _ (by assumption))
              (withdraw_frame _ _ _ _ _ (by assumption))
  · cases h

theorem add_liquidity_frame (p : LiquidityPool) (t0 t1 : Bucket)
    (r0 r1 mint : Bucket) (p1 : LiquidityPool)
    (h : p.add_liquidity t0 t1 = .ok (r0, r1, mint, p1)) :
    PreservesIdentity p p1 := by
  unfold LiquidityPool.add_liquidity at h
  split at h
  · split at h
    · cases h
    · cases h
      refine preservesIdentity_trans (preservesIdentity_trans
        (credit_frame _ _ _) (credit_frame _ _ _)) ⟨rfl, rfl, rfl, rfl⟩
  · cases h

theorem remove_liquidity_frame (p : LiquidityPool) (pt : Bucket)
    (b0 b1 : Bucket) (p1 : LiquidityPool)
    (h : p.remove_liquidity pt = .ok (b0, b1, p1)) :
    PreservesIdentity p p1 := by
  unfold LiquidityPool.remove_liquidity at h
  split at h
  · dsimp only at h
    split at h
    · cases h
    · split at h
      · cases h
      · cases h
        refine preservesIdentity_trans ?_
          (withdraw_frame _ _ _ _ _ (by assumption))
        refine preservesIdentity_trans
          (q := { p with provider_token_supply :=
                    p.provider_token_supply - pt.amount })
          ⟨rfl, rfl, rfl, rfl⟩ ?_
        exact withdraw_frame _ _ _ _ _ (by assumption)
  · cases h

/-- C10: every mutating pool operation — `swap`, `swapExactIn`,
`swapExactOut`, `addLiquidity`, `removeLiquidity` — leaves the pool's fee,
its provider-share-token identity, and its two vault asset addresses
unchanged; only the vault balances and the share supply are ever mutated.
(The quote/query methods take the pool immutably and return no pool state at
all in this embedding, so they mutate nothing by typing.) -/
theorem pool_ops_preserve_identity (p : LiquidityPool) :
    (∀ t p1 out, p.swap t = .ok (p1, out) → PreservesIdentity p p1) ∧
    (∀ t m p1 out, p.swap_exact_tokens_for_tokens t m = .ok (p1, out) →
      PreservesIdentity p p1) ∧
    (∀ t m p1 out rem, p.swap_tokens_for_exact_tokens t m = .ok (p1, out, rem) →
      PreservesIdentity p p1) ∧
    (∀ t0 t1 r0 r1 mint p1, p.add_liquidity t0 t1 = .ok (r0, r1, mint, p1) →
      PreservesIdentity p p1) ∧
    (∀ pt b0 b1 p1, p.remove_liquidity pt = .ok (b0, b1, p1) →
      PreservesIdentity p p1) :=
  ⟨fun t p1 out h => swap_frame p t p1 out h,
   fun t m p1 out h => swap_exact_frame p t m p1 out h,
   fun t m p1 out rem h => swap_for_exact_frame p t m p1 out rem h,
   fun t0 t1 r0 r1 mint p1 h => add_liquidity_frame p t0 t1 r0 r1 mint p1 h,
   fun pt b0 b1 p1 h => remove_liquidity_frame p pt b0 b1 p1 h⟩

/-- C10 (witness): the scenario swap leaves the fee, the share-token
identity and the asset addresses of the pool unchanged. -/
theorem pool_ops_preserve_identity_witness :
    PreservesIdentity demoPool
      { demoPool with amount0 := 1010, amount1 := 1000 - 997000 / 100997 } :=
  (pool_ops_preserve_identity demoPool).1 ⟨[1], 10⟩
    { demoPool with amount0 := 1010, amount1 := 1000 - 997000 / 100997 }
    ⟨[0], 997000 / 100997⟩ demoPool_swap_eval

/-! ### Router registry invariants (C9) -/

namespace ElisionSwap

theorem lookupPool_isSome_iff (l : List ((Addr × Addr) × LiquidityPool))
    (k : Addr × Addr) :
    (lookupPool l k).isSome = true ↔ k ∈ l.map Prod.fst := by
  induction l with
  | nil => simp [lookupPool]
  | cons kv rest ih =>
    obtain ⟨key, pool⟩ := kv
    by_cases h : key = k
    · subst h
      simp [lookupPool]
    · rw [lookupPool, if_neg h]
      simp only [List.map_cons, List.mem_cons]
      rw [ih]
      constructor
      · exact Or.inr
      · intro hm
        rcases hm with hm | hm
        · exact absurd hm.symm h
        · exact hm

theorem updatePool_keys (l : List ((Addr × Addr) × LiquidityPool))
    (pair : Addr × Addr) (pool : LiquidityPool) :
    (updatePool l pair pool).map Prod.fst = l.map Prod.fst := by
  induction l with
  | nil => rfl
  | cons kv rest ih =>
    obtain ⟨key, q⟩ := kv
    by_cases h : key = pair <;> simp [updatePool, h] <;>
      simpa [updatePool] using ih

theorem lookupPool_updatePool_isSome (l : List ((Addr × Addr) × LiquidityPool))
    (pair k : Addr × Addr) (pool : LiquidityPool) :
    (lookupPool (updatePool l pair pool) k).isSome =
      (lookupPool l k).isSome := by
  rw [Bool.eq_iff_iff, lookupPool_isSome_iff, lookupPool_isSome_iff,
    updatePool_keys]

/-- Replacing the pool stored at a registered pair keeps both indices
consistent. -/
theorem consistent_updatePool (s : ElisionSwap) (pair : Addr × Addr)
    (pool : LiquidityPool) (hc : Consistent s) :
    Consistent { s with
                   liquidity_pools := updatePool s.liquidity_pools pair pool } := by
  refine ⟨?_, fun pt pr hmem => ?_⟩
  · simpa [updatePool_keys] using hc.1
  · simpa [lookupPool_updatePool_isSome] using hc.2 pt pr hmem

end ElisionSwap

/-- The two addresses of the sorted bucket pair are exactly
`sort_addresses` of the two bucket addresses. -/
theorem sort_buckets_addresses (b0 b1 : Bucket) :
    ((sort_buckets b0 b1).1.address, (sort_buckets b0 b1).2.address) =
      sort_addresses b0.address b1.address := by
  unfold sort_buckets sort_addresses
  by_cases hg : vecGt b0.address b1.address = true <;>
    by_cases h : b0.address = b1.address <;>
      simp [hg, h]

namespace ElisionSwap

theorem lookupPool_cons_isSome (kv : (Addr × Addr) × LiquidityPool)
    (l : List ((Addr × Addr) × LiquidityPool)) (k : Addr × Addr)
    (h : (lookupPool l k).isSome = true) :
    (lookupPool (kv :: l) k).isSome = true := by
  obtain ⟨key, pool⟩ := kv
  by_cases hk : key = k <;> simp [lookupPool, hk, h]

/-- A successful `new_liquidity_pool` keeps the two indices consistent: the
fresh pair key was absent (the AlreadyExists guard), and the reverse-map
entry points at the pool just registered. -/
theorem new_liquidity_pool_consistent (s : ElisionSwap) (t0 t1 : Bucket)
    (pt : Addr) (b : Bucket) (s' : ElisionSwap)
    (hok : s.new_liquidity_pool t0 t1 pt = .ok (b, s'))
    (hc : Consistent s) : Consistent s' := by
  unfold new_liquidity_pool at hok
  split at hok
  · cases hok
  · rename_i hex
    dsimp only at hok
    split at hok
    · cases hok
    · cases hok
      constructor
      · simp only [List.map_cons]
        rw [List.nodup_cons]
        refine ⟨fun hmem => ?_, hc.1⟩
        have hsome : (lookupPool s.liquidity_pools
            ((sort_buckets t0 t1).1.address,
             (sort_buckets t0 t1).2.address)).isSome = true :=
          (lookupPool_isSome_iff _ _).mpr hmem
        rw [sort_buckets_addresses] at hsome
        exact hex (by simpa [pool_exists] using hsome)
      · intro pt' pr hmem
        rw [List.mem_cons] at hmem
        rcases hmem with heq | hmem
        · cases heq
          simp [lookupPool]
        · exact lookupPool_cons_isSome _ _ _ (hc.2 pt' pr hmem)

theorem router_add_liquidity_consistent (s : ElisionSwap) (t0 t1 : Bucket)
    (pt : Addr) (r : Option Bucket × Option Bucket × Bucket)
    (s' : ElisionSwap) (hok : s.add_liquidity t0 t1 pt = .ok (r, s'))
    (hc : Consistent s) : Consistent s' := by
  unfold add_liquidity at hok
  dsimp only at hok
  split at hok
  · split at hok
    · cases hok
    · cases hok
      exact consistent_updatePool s _ _ hc
  · split at hok
    · cases hok
    · cases hok
      exact new_liquidity_pool_consistent s _ _ pt _ _ (by assumption) hc

theorem router_remove_liquidity_consistent (s : ElisionSwap) (pt : Bucket)
    (r : Bucket × Bucket) (s' : ElisionSwap)
    (hok : s.remove_liquidity pt = .ok (r, s'))
    (hc : Consistent s) : Consistent s' := by
  unfold remove_liquidity at hok
  split at hok
  · cases hok
  · split at hok
    · cases hok
    · split at hok
      · cases hok
      · cases hok
        exact consistent_updatePool s _ _ hc

theorem router_swap_consistent (s : ElisionSwap) (t : Bucket) (a : Addr)
    (b : Bucket) (s' : ElisionSwap) (hok : s.swap t a = .ok (b, s'))
    (hc : Consistent s) : Consistent s' := by
  unfold swap at hok
  dsimp only at hok
  split at hok
  · cases hok
  · split at hok
    · cases hok
    · cases hok
      exact consistent_updatePool s _ _ hc

theorem router_swap_exact_consistent (s : ElisionSwap) (t : Bucket)
    (a : Addr) (m : Decimal) (b : Bucket) (s' : ElisionSwap)
    (hok : s.swap_exact_tokens_for_tokens t a m = .ok (b, s'))
    (hc : Consistent s) : Consistent s' := by
  unfold swap_exact_tokens_for_tokens at hok
  dsimp only at hok
  split at hok
  · cases hok
  · split at hok
    · cases hok
    · cases hok
      exact consistent_updatePool s _ _ hc

theorem router_swap_for_exact_consistent (s : ElisionSwap) (t : Bucket)
    (a : Addr) (m : Decimal) (r : Bucket × Bucket) (s' : ElisionSwap)
    (hok : s.swap_tokens_for_exact_tokens t a m = .ok (r, s'))
    (hc : Consistent s) : Consistent s' := by
  unfold swap_tokens_for_exact_tokens at hok
  dsimp only at hok
  split at hok
  · cases hok
  · split at hok
    · cases hok
    · cases hok
      exact consistent_updatePool s _ _ hc

/-- Every reachable router state is consistent. -/
theorem reachable_consistent (s : ElisionSwap) (h : Reachable s) :
    Consistent s := by
  induction h with
  | base =>
    refine ⟨by simp [ElisionSwap.new], fun pt pr hmem => ?_⟩
    simp [ElisionSwap.new] at hmem
  | create hr hok ih =>
    exact new_liquidity_pool_consistent _ _ _ _ _ _ hok ih
  | addLiq hr hok ih =>
    exact router_add_liquidity_consistent _ _ _ _ _ _ hok ih
  | removeLiq hr hok ih =>
    exact router_remove_liquidity_consistent _ _ _ _ hok ih
  | doSwap hr hok ih =>
    exact router_swap_consistent _ _ _ _ _ hok ih
  | doSwapExact hr hok ih =>
    exact router_swap_exact_consistent _ _ _ _ _ _ hok ih
  | doSwapForExact hr hok ih =>
    exact router_swap_for_exact_consistent _ _ _ _ _ _ hok ih

end ElisionSwap

/-- The pool registered by the witness router run below. -/
def demoRouterPool : LiquidityPool :=
  { address0 := [1], address1 := [0], amount0 := 7, amount1 := 5
    provider_token_address := [2], provider_token_supply := 100
    pool_fee := 3 / 10 }

/-- The router state after creating one pool for the pair `{[0], [1]}`. -/
def demoRouter : ElisionSwap :=
  { liquidity_pools := [(([1], [0]), demoRouterPool)]
    address_pair_map := [([2], ([1], [0]))] }

/-- C9: in every reachable router state, `createPool` fails with
AlreadyExistsError when a pool is already registered for the canonicalized
pair, and the two indices stay mutually consistent: the pair map has no
duplicate keys (each registered pair keys exactly one pool), and every
provider-share-token identity in the reverse map resolves to a registered
pool. -/
theorem router_invariants (s : ElisionSwap) (hr : ElisionSwap.Reachable s) :
    ElisionSwap.Consistent s ∧
    ∀ t0 t1 pt, s.pool_exists t0.address t1.address = true →
      s.new_liquidity_pool t0 t1 pt = .error .alreadyExists := by
  refine ⟨ElisionSwap.reachable_consistent s hr, fun t0 t1 pt h => ?_⟩
  unfold ElisionSwap.new_liquidity_pool
  rw [if_pos h]

/-- C9 (witness): the concrete router state reached by creating a pool from
buckets `([0], 5)` and `([1], 7)` is consistent, and creating a second pool
for the same (reversed) pair fails with AlreadyExistsError. -/
theorem router_invariants_witness :
    ElisionSwap.Consistent demoRouter ∧
    demoRouter.new_liquidity_pool ⟨[1], 9⟩ ⟨[0], 4⟩ [3] =
      .error .alreadyExists := by
  have hstep : ElisionSwap.new.new_liquidity_pool ⟨[0], 5⟩ ⟨[1], 7⟩ [2] =
      .ok (⟨[2], 100⟩, demoRouter) := by
    simp [ElisionSwap.new, ElisionSwap.new_liquidity_pool,
      ElisionSwap.pool_exists, ElisionSwap.lookupPool, sort_buckets,
      sort_addresses, vecGt, vecLt, LiquidityPool.new, demoRouter,
      demoRouterPool]
    norm_num
  have hr : ElisionSwap.Reachable demoRouter :=
    ElisionSwap.Reachable.create ElisionSwap.Reachable.base hstep
  exact ⟨(router_invariants demoRouter hr).1,
         (router_invariants demoRouter hr).2 ⟨[1], 9⟩ ⟨[0], 4⟩ [3] (by decide)⟩
